import Mathlib

/-!
Verification development for the tui-kit terminal UI engine.

The definitions below are shallow embeddings of the TypeScript sources:
JavaScript numbers are modelled as `JSNum` (a rational, NaN, or an infinity)
where non-finite/fractional behaviour matters, and as plain rationals `ℚ`
where the code only performs exact arithmetic on them; JS arrays become
`List`; fallible operations (property access on `undefined`) return `Option`.
Each definition names the source function it embeds.
-/

namespace TuiKit

/-! ### JavaScript number model

A JS number is a finite value (modelled as a rational — adequate for the
arithmetic the embedded code performs), NaN, or one of the two infinities.
`jsLt`/`jsGe` follow IEEE comparison semantics: every comparison involving
NaN is false. -/

inductive JSNum where
  | num (q : ℚ)
  | nan
  | posInf
  | negInf
deriving DecidableEq, Repr

def jsLt : JSNum → JSNum → Bool
  | .num a, .num b => a < b
  | .num _, .posInf => true
  | .num _, .negInf => false
  | .nan, _ => false
  | _, .nan => false
  | .posInf, _ => false
  | .negInf, .negInf => false
  | .negInf, _ => true

def jsGe : JSNum → JSNum → Bool
  | .num a, .num b => b ≤ a
  | .num _, .posInf => false
  | .num _, .negInf => true
  | .nan, _ => false
  | _, .nan => false
  | .posInf, _ => true
  | .negInf, .negInf => true
  | .negInf, _ => false

/-- `Number.isFinite(value)` -/
def jsIsFinite : JSNum → Bool
  | .num _ => true
  | _ => false

/-- `Math.floor` on a finite JS number (as an integer). -/
def jsFloor (q : ℚ) : ℤ := ⌊q⌋

/-! ### Colors and cells (from `colors.ts` / the render pipeline in `elements.md`)

`RGBA` is the color record `{r, g, b, a}`; `Cell` is the screen-buffer cell of
the `elements.md` rendering pipeline (char, fg, bg and six attribute flags). -/

structure RGBA where
  r : ℕ
  g : ℕ
  b : ℕ
  a : ℚ
deriving DecidableEq, Repr

structure Cell where
  char : Char
  fg : Option RGBA
  bg : Option RGBA
  bold : Bool
  dim : Bool
  italic : Bool
  underline : Bool
  strikethrough : Bool
  inverse : Bool
deriving DecidableEq, Repr

/-- `emptyCell()` from the render pipeline. -/
def emptyCell : Cell :=
  { char := ' ', fg := none, bg := none, bold := false, dim := false,
    italic := false, underline := false, strikethrough := false, inverse := false }

/-! ### ScreenBuffer dimension normalization (`elements.md`) -/

/-- `normalizeDimension(value)`: non-finite values become 0, finite values are
floored and clamped to be non-negative. -/
def normalizeDimension : JSNum → ℤ
  | .num q => max 0 ⌊q⌋
  | _ => 0

/-- The row-building loops of `ScreenBuffer.createEmptyBuffer`: `height` rows,
each of `width` cells, every cell `emptyCell()`. -/
def createEmptyBuffer (width height : ℤ) : List (List Cell) :=
  (List.range height.toNat).map (fun _ => (List.range width.toNat).map (fun _ => emptyCell))

/-- The `ScreenBuffer` of `elements.md` (double-buffered rendering pipeline). -/
structure ScreenBufferMd where
  width : ℤ
  height : ℤ
  cells : List (List Cell)
  prevCells : Option (List (List Cell))
deriving DecidableEq, Repr

/-- The `ScreenBuffer` constructor: both dimensions are normalized, then the
cell grid is allocated.  (`createEmptyBuffer` re-applies `normalizeDimension`
to the already-normalized stored dimensions, which is a no-op.) -/
def ScreenBufferMd.make (w h : JSNum) : ScreenBufferMd :=
  { width := normalizeDimension w
    height := normalizeDimension h
    cells := createEmptyBuffer (normalizeDimension w) (normalizeDimension h)
    prevCells := none }

/-- `ScreenBuffer.resize(width, height)`: normalize, reallocate, drop the
previous frame. -/
def ScreenBufferMd.resize (_b : ScreenBufferMd) (w h : JSNum) : ScreenBufferMd :=
  { width := normalizeDimension w
    height := normalizeDimension h
    cells := createEmptyBuffer (normalizeDimension w) (normalizeDimension h)
    prevCells := none }

theorem createEmptyBuffer_length (w h : ℤ) :
    (createEmptyBuffer w h).length = h.toNat := by
  simp [createEmptyBuffer]

theorem createEmptyBuffer_row_lengths (w h : ℤ) :
    (createEmptyBuffer w h).map List.length = List.replicate h.toNat w.toNat := by
  simp [createEmptyBuffer, List.map_map, Function.comp]

/-- C10: The ScreenBuffer constructor and resize normalize their dimension
arguments — a non-finite width or height becomes 0, fractional values are
floored, negative values clamp to 0 — and after any construction or resize the
buffer holds exactly `height` rows of exactly `width` cells each. -/
theorem screenBuffer_dimension_normalization (w h : JSNum) (b : ScreenBufferMd) (q : ℚ) :
    normalizeDimension .nan = 0 ∧
    normalizeDimension .posInf = 0 ∧
    normalizeDimension .negInf = 0 ∧
    normalizeDimension (.num q) = max 0 ⌊q⌋ ∧
    (ScreenBufferMd.make w h).cells.length = (normalizeDimension h).toNat ∧
    (ScreenBufferMd.make w h).cells.map List.length
      = List.replicate (normalizeDimension h).toNat (normalizeDimension w).toNat ∧
    (b.resize w h).cells.length = (normalizeDimension h).toNat ∧
    (b.resize w h).cells.map List.length
      = List.replicate (normalizeDimension h).toNat (normalizeDimension w).toNat := by
  refine ⟨rfl, rfl, rfl, rfl, ?_, ?_, ?_, ?_⟩ <;>
    simp [ScreenBufferMd.make, ScreenBufferMd.resize,
      createEmptyBuffer_length, createEmptyBuffer_row_lengths]

/-! ### Write primitives (C7)

Two ScreenBuffer variants exist in the sources: `tui.ts` (class `ScreenBuffer`,
cells without an `inverse` flag, `setCell` guarded only by `<`/`>=`
comparisons) and the render pipeline in `elements.md` (`writeChar` guarded by
`Number.isFinite` plus `Math.floor`).  JS array indexing `arr[i]` yields an
element only when `i` is a finite integer in `[0, length)`; otherwise it
yields `undefined`, and accessing or assigning a property of `undefined`
throws a `TypeError` — modelled as `Option.none`. -/

/-- The cell of the `tui.ts` `ScreenBuffer` (string `char`, no `inverse`). -/
structure CellT where
  char : String
  fg : Option RGBA
  bg : Option RGBA
  bold : Bool
  dim : Bool
  italic : Bool
  underline : Bool
  strikethrough : Bool
deriving DecidableEq, Repr

/-- A `Partial<Cell>` style argument: `undefined` fields (here `none`) leave
the corresponding cell field untouched. -/
structure PartialCellT where
  fg : Option (Option RGBA) := none
  bg : Option (Option RGBA) := none
  bold : Option Bool := none
  dim : Option Bool := none
  italic : Option Bool := none
  underline : Option Bool := none
  strikethrough : Option Bool := none
deriving DecidableEq, Repr

/-- The valid JS array index denoted by a JS number, if any: a finite integer
`≥ 0` (range against the array length is checked by the lookup itself). -/
def jsIdx : JSNum → Option ℕ
  | .num q => if q.den = 1 ∧ 0 ≤ q.num then some q.num.toNat else none
  | _ => none

/-- The `tui.ts` `ScreenBuffer` (dimensions are stored unvalidated). -/
structure ScreenBufferT where
  width : ℚ
  height : ℚ
  cells : List (List CellT)
deriving DecidableEq, Repr

/-- The field updates of `tui.ts` `setCell`: `char` is always overwritten,
every other field only when the corresponding style entry is not undefined. -/
def applyPartialCell (c : CellT) (ch : String) (st : PartialCellT) : CellT :=
  { char := ch
    fg := st.fg.getD c.fg
    bg := st.bg.getD c.bg
    bold := st.bold.getD c.bold
    dim := st.dim.getD c.dim
    italic := st.italic.getD c.italic
    underline := st.underline.getD c.underline
    strikethrough := st.strikethrough.getD c.strikethrough }

/-- `tui.ts` `ScreenBuffer.setCell(x, y, char, style)`.  The guard uses raw JS
comparisons (`x < 0 || x >= width || y < 0 || y >= height`); when it does not
fire, `this.cells[y][x]` is accessed and mutated — `none` models the
`TypeError` thrown when that access hits `undefined` (NaN or fractional
index). -/
def tuiSetCell (b : ScreenBufferT) (x y : JSNum) (ch : String) (st : PartialCellT) :
    Option ScreenBufferT :=
  if jsLt x (.num 0) || jsGe x (.num b.width) || jsLt y (.num 0) || jsGe y (.num b.height) then
    some b
  else
    match jsIdx y with
    | none => none
    | some yn =>
      match b.cells.get? yn with
      | none => none
      | some row =>
        match jsIdx x with
        | none => none
        | some xn =>
          match row.get? xn with
          | none => none
          | some cell =>
            some { b with cells := b.cells.set yn (row.set xn (applyPartialCell cell ch st)) }

/-- The optional style-flag record of `elements.md` `writeChar`. -/
structure MdStyles where
  bold : Option Bool := none
  dim : Option Bool := none
  italic : Option Bool := none
  underline : Option Bool := none
  strikethrough : Option Bool := none
  inverse : Option Bool := none
deriving DecidableEq, Repr

/-- The field updates of `elements.md` `writeChar` on the target cell. -/
def applyMdWrite (c : Cell) (ch : Char) (fg bg : Option (Option RGBA)) (st : MdStyles) : Cell :=
  { char := ch
    fg := fg.getD c.fg
    bg := bg.getD c.bg
    bold := st.bold.getD c.bold
    dim := st.dim.getD c.dim
    italic := st.italic.getD c.italic
    underline := st.underline.getD c.underline
    strikethrough := st.strikethrough.getD c.strikethrough
    inverse := st.inverse.getD c.inverse }

/-- `elements.md` `ScreenBuffer.writeChar(x, y, char, fg, bg, styles)`:
non-finite coordinates return immediately, finite ones are floored and
bounds-checked, missing rows/cells return, and only the first code unit of
`char` is used (empty string falls back to a space).  Total — it can never
throw. -/
def mdWriteChar (b : ScreenBufferMd) (x y : JSNum) (char : String)
    (fg bg : Option (Option RGBA)) (st : MdStyles) : ScreenBufferMd :=
  match x, y with
  | .num qx, .num qy =>
    if ⌊qx⌋ < 0 ∨ ⌊qx⌋ ≥ b.width ∨ ⌊qy⌋ < 0 ∨ ⌊qy⌋ ≥ b.height then b
    else
      match b.cells.get? ⌊qy⌋.toNat with
      | none => b
      | some row =>
        match row.get? ⌊qx⌋.toNat with
        | none => b
        | some cell =>
          let ch := match char.data with
            | [] => ' '
            | c :: _ => c
          { b with cells := b.cells.set ⌊qy⌋.toNat (row.set ⌊qx⌋.toNat
              (applyMdWrite cell ch fg bg st)) }
  | _, _ => b

/-- A coordinate pair is outside the `elements.md` buffer bounds when either
coordinate is non-finite or its floor falls outside `[0,width) × [0,height)`. -/
def mdOutOfRange (b : ScreenBufferMd) (x y : JSNum) : Bool :=
  match x, y with
  | .num qx, .num qy => decide (⌊qx⌋ < 0 ∨ ⌊qx⌋ ≥ b.width ∨ ⌊qy⌋ < 0 ∨ ⌊qy⌋ ≥ b.height)
  | _, _ => true

/-- A concrete 1×1 `tui.ts` buffer. -/
def tuiBuf1 : ScreenBufferT :=
  { width := 1, height := 1,
    cells := [[{ char := " ", fg := none, bg := none, bold := false, dim := false,
                 italic := false, underline := false, strikethrough := false }]] }

/-- C7 counterexample: a NaN x-coordinate — which is outside the buffer bounds,
since it lies in no interval — passes the `tui.ts` `setCell` bounds test (all
NaN comparisons are false) and the subsequent `this.cells[y][x]` access throws
a `TypeError` (modelled as `none`) instead of being a no-op.  This falsifies
the claim that every out-of-bounds write is a no-op that never raises. -/
theorem tui_setCell_nan_throws :
    tuiSetCell tuiBuf1 .nan (.num 0) " " {} = none := by decide

/-- C7 (amended): `tui.ts` `setCell` is an unchanged-buffer no-op for every
coordinate pair its comparison guard classifies as out of range (negative,
beyond the bounds, infinite, or fractional beyond the bounds), and the
`elements.md` `writeChar` — which guards non-finite coordinates and floors
finite ones — is total and leaves the buffer unchanged for every out-of-range
coordinate pair; but a NaN (or fractional in-range) coordinate reaching
`tui.ts` `setCell` fails the array access instead of being a no-op. -/
theorem write_primitives_out_of_range (b : ScreenBufferT) (b' : ScreenBufferMd)
    (x y x' y' : JSNum) (ch ch' : String) (st : PartialCellT)
    (fg bg : Option (Option RGBA)) (st' : MdStyles)
    (hT : (jsLt x (.num 0) || jsGe x (.num b.width)
            || jsLt y (.num 0) || jsGe y (.num b.height)) = true)
    (hM : mdOutOfRange b' x' y' = true) :
    tuiSetCell b x y ch st = some b ∧ mdWriteChar b' x' y' ch' fg bg st' = b' := by
  constructor
  · simp [tuiSetCell, hT]
  · cases x' <;> cases y' <;> simp_all [mdWriteChar, mdOutOfRange]

/-- C7 amended witness: concrete out-of-range writes (a negative x on the
`tui.ts` buffer, a NaN x on the `elements.md` buffer) are no-ops. -/
theorem write_primitives_out_of_range_witness :
    tuiSetCell tuiBuf1 (.num (-1)) (.num 0) " " {} = some tuiBuf1 ∧
      mdWriteChar (ScreenBufferMd.make (.num 1) (.num 1)) .nan (.num 0) "x" none none {}
        = ScreenBufferMd.make (.num 1) (.num 1) :=
  write_primitives_out_of_range tuiBuf1 (ScreenBufferMd.make (.num 1) (.num 1))
    (.num (-1)) (.num 0) .nan (.num 0) " " "x" {} none none {} (by decide) (by decide)

/-! ### Stable sort model

`Array.prototype.sort` is stable (ES2019).  Both `mouse.ts` and the focus
managers sort with numeric comparators of the form `key(a) - key(b)`, i.e.
ascending by a numeric key with ties kept in original order — modelled here as
a stable insertion sort on that key. -/

def insertByKeyAsc (key : α → ℚ) (a : α) : List α → List α
  | [] => [a]
  | b :: bs => if key b ≤ key a then b :: insertByKeyAsc key a bs else a :: b :: bs

def stableSortByKey (key : α → ℚ) (l : List α) : List α :=
  l.foldl (fun acc a => insertByKeyAsc key a acc) []

/-! ### Mouse regions (C2)

`mouse.ts` keeps a module-level `regions` list; `registerRegion` de-duplicates
by id, appends, then sorts by the comparator `(b.x + b.y*1000) - (a.x +
a.y*1000)` (descending by `x + 1000·y`); `findRegionAt` scans that list from
the front.  The `MouseManager` of the input-handling module (part_002) merely
appends and scans from the back.  Callbacks are external side effects and are
not part of the model. -/

structure Region where
  id : String
  x : ℚ
  y : ℚ
  width : ℚ
  height : ℚ
deriving DecidableEq, Repr

/-- The hit test `x >= r.x && x < r.x + r.width && y >= r.y && y < r.y + r.height`
shared by both `findRegionAt` (mouse.ts) and `MouseManager.findRegion`. -/
def regionContains (r : Region) (x y : ℚ) : Bool :=
  r.x ≤ x && x < r.x + r.width && r.y ≤ y && y < r.y + r.height

/-- `mouse.ts` `registerRegion`: drop any region with the same id, append, then
stable-sort descending by `x + 1000·y` (ascending by the negated key). -/
def registerRegion (regions : List Region) (r : Region) : List Region :=
  stableSortByKey (fun s => -(s.x + s.y * 1000)) ((regions.filter (fun s => s.id ≠ r.id)) ++ [r])

/-- `mouse.ts` `findRegionAt(x, y)`: first hit scanning the sorted list from
the front. -/
def findRegionAt (regions : List Region) (x y : ℚ) : Option Region :=
  regions.find? (fun r => regionContains r x y)

/-- `MouseManager.register` (part_002): plain append. -/
def mmRegister (regions : List Region) (r : Region) : List Region :=
  regions ++ [r]

/-- `MouseManager.findRegion` (part_002): scan from the last-registered region
backwards ("in reverse order for z-index"). -/
def mmFindRegion (regions : List Region) (x y : ℚ) : Option Region :=
  regions.reverse.find? (fun r => regionContains r x y)

def regionR1 : Region := { id := "r1", x := 0, y := 0, width := 5, height := 5 }

def regionR2 : Region := { id := "r2", x := 0, y := 0, width := 5, height := 5 }

/-- C2 counterexample: registering the two identical 5×5 regions R1 then R2
into a fresh `mouse.ts` region list and hit-testing a point both contain
returns R1, the *first*-registered region — the sort key `x + 1000·y` is equal
for both, the stable sort keeps R1 first, and `findRegionAt` returns the first
match.  This falsifies "the later-registered region wins the hit test". -/
theorem findRegionAt_first_registered_wins :
    findRegionAt (registerRegion (registerRegion [] regionR1) regionR2) 0 0 = some regionR1
      ∧ regionR1 ≠ regionR2 := by
  constructor
  · norm_num [findRegionAt, registerRegion, stableSortByKey, insertByKeyAsc,
      regionContains, regionR1, regionR2, List.filter, List.find?]
  · simp [regionR1, regionR2]

/-- C2 (amended): in the part_002 `MouseManager`, for every two regions R1, R2
registered in that order into a fresh region list and every point contained in
both rectangles, `findRegion` returns R2 — the later-registered region wins.
(In `mouse.ts`, by contrast, the winner is the first region in the list sorted
descending by `x + 1000·y`.) -/
theorem mmFindRegion_last_registered_wins (r1 r2 : Region) (x y : ℚ)
    (_h1 : regionContains r1 x y = true) (h2 : regionContains r2 x y = true) :
    mmFindRegion (mmRegister (mmRegister [] r1) r2) x y = some r2 := by
  simp [mmFindRegion, mmRegister, List.find?, h2]

/-- C2 amended witness: the concrete overlapping pair at the origin. -/
theorem mmFindRegion_last_registered_wins_witness :
    mmFindRegion (mmRegister (mmRegister [] regionR1) regionR2) 0 0 = some regionR2 :=
  mmFindRegion_last_registered_wins regionR1 regionR2 0 0
    (by norm_num [regionContains, regionR1]) (by norm_num [regionContains, regionR2])

/-! ### Focus manager (C1)

The `FocusManager` of the input-handling module (part_002) keeps a
`Map<string, {tabIndex, element}>` (insertion-ordered) plus a derived
`focusOrder`.  `updateFocusOrder` sorts *all* entries ascending by `tabIndex`
with the comparator `a.tabIndex - b.tabIndex` (stable, so ties stay in
registration order) — `tabIndex == 0` entries are not treated specially. -/

structure FocusEntry where
  id : String
  tabIndex : ℚ
deriving DecidableEq, Repr

structure FocusManager where
  entries : List FocusEntry
  focusedId : Option String
  focusOrder : List String
deriving DecidableEq, Repr

def fmEmpty : FocusManager := { entries := [], focusedId := none, focusOrder := [] }

/-- `Map.set` keeps the position of an existing key and appends a new one. -/
def mapSetEntry : List FocusEntry → String → ℚ → List FocusEntry
  | [], id, ti => [{ id := id, tabIndex := ti }]
  | e :: es, id, ti =>
    if e.id = id then { id := id, tabIndex := ti } :: es else e :: mapSetEntry es id ti

/-- `FocusManager.updateFocusOrder`: sort the map entries by
`a.tabIndex - b.tabIndex` and project the ids. -/
def updateFocusOrder (entries : List FocusEntry) : List String :=
  (stableSortByKey (fun e => e.tabIndex) entries).map (fun e => e.id)

/-- `FocusManager.register(id, tabIndex, element)`. -/
def fmRegister (m : FocusManager) (id : String) (ti : ℚ) : FocusManager :=
  let entries := mapSetEntry m.entries id ti
  { entries := entries, focusedId := m.focusedId, focusOrder := updateFocusOrder entries }

/-- `FocusManager.focus(id)`: set `focusedId` when the id is registered
(`onBlur`/`onFocus` callbacks are external side effects, not modelled). -/
def fmFocus (m : FocusManager) (id : String) : FocusManager :=
  if m.entries.any (fun e => e.id = id) then { m with focusedId := some id } else m

/-- `FocusManager.focusNext()`: from the unfocused state focus the first entry
of `focusOrder`; otherwise advance `(indexOf focused + 1) % length` with
wraparound. -/
def fmFocusNext (m : FocusManager) : FocusManager :=
  match m.focusOrder with
  | [] => m
  | first :: _ =>
    match m.focusedId with
    | none => fmFocus m first
    | some fid =>
      let ci : ℤ := if fid ∈ m.focusOrder then (m.focusOrder.indexOf fid : ℤ) else -1
      let next : ℤ := (ci + 1) % (m.focusOrder.length : ℤ)
      fmFocus m (m.focusOrder.getD next.toNat "")

/-- The spec's focus-order example, registered into a fresh manager:
A(tabIndex 2), B(0), C(1), D(0) in that order. -/
def fmExample : FocusManager :=
  fmRegister (fmRegister (fmRegister (fmRegister fmEmpty "A" 2) "B" 0) "C" 1) "D" 0

/-- C1 counterexample: the resolved focus order of the example registry is not
`[C, A, B, D]`, and `focusNext()` from the unfocused state does not focus C —
the code's plain stable sort by `tabIndex` puts the `tabIndex == 0` candidates
first rather than appending them. -/
theorem focus_order_example_counterexample :
    fmExample.focusOrder ≠ ["C", "A", "B", "D"]
      ∧ (fmFocusNext fmExample).focusedId ≠ some "C" := by decide

/-! ### Element registry (C9, and the `elements.ts` focus order of C1)

`elements.ts` keeps `elementRegistry : Map<string, ElementState>`,
`focusOrder : string[]` (push on first registration — no `tabIndex`), and
`currentFocusIndex`.  Only the fields the embedded operations touch are
modelled. -/

structure ElemState where
  id : String
  ty : String
  focused : Bool
deriving DecidableEq, Repr

structure ElemRegistry where
  elems : List ElemState
  focusOrder : List String
  currentFocusIndex : ℤ
deriving DecidableEq, Repr

def regEmpty : ElemRegistry := { elems := [], focusOrder := [], currentFocusIndex := -1 }

/-- `Map.set` on the element registry (replace in place or append). -/
def mapSetElem : List ElemState → ElemState → List ElemState
  | [], s => [s]
  | e :: es, s => if e.id = s.id then s :: es else e :: mapSetElem es s

/-- `registerElement(state)`: store in the map; push the id onto `focusOrder`
unless already present. -/
def registerElement (r : ElemRegistry) (s : ElemState) : ElemRegistry :=
  { elems := mapSetElem r.elems s
    focusOrder := if s.id ∈ r.focusOrder then r.focusOrder else r.focusOrder ++ [s.id]
    currentFocusIndex := r.currentFocusIndex }

/-- `focusElement(id)`: set `focused := (key === id)` on every registered
element, and `currentFocusIndex := focusOrder.indexOf(id)` (−1 when absent). -/
def focusElement (r : ElemRegistry) (id : String) : ElemRegistry :=
  { elems := r.elems.map (fun e => { e with focused := e.id = id })
    focusOrder := r.focusOrder
    currentFocusIndex := if id ∈ r.focusOrder then (r.focusOrder.indexOf id : ℤ) else -1 }

/-- `getFocusedElement()`: the first registered element with `focused`. -/
def getFocusedElement (r : ElemRegistry) : Option ElemState :=
  r.elems.find? (fun e => e.focused)

/-- `focusNext()` of `elements.ts`: advance `currentFocusIndex` modulo the
order length and focus that id; returns the id. -/
def elFocusNext (r : ElemRegistry) : ElemRegistry × Option String :=
  if r.focusOrder.length = 0 then (r, none)
  else
    let idx : ℤ := (r.currentFocusIndex + 1) % (r.focusOrder.length : ℤ)
    let id := r.focusOrder.getD idx.toNat ""
    (focusElement { r with currentFocusIndex := idx } id, some id)

/-- The C1 example registered through `elements.ts` (`tabIndex` is not even an
input of `registerElement`). -/
def elExample : ElemRegistry :=
  registerElement (registerElement (registerElement (registerElement regEmpty
    { id := "A", ty := "box", focused := false })
    { id := "B", ty := "box", focused := false })
    { id := "C", ty := "box", focused := false })
    { id := "D", ty := "box", focused := false }

/-- C1 (amended): the resolved order of the part_002 `FocusManager` example
registry is `[B, D, C, A]` (*all* candidates sorted ascending by `tabIndex`,
including `tabIndex == 0`, ties in registration order); `focusNext()` from the
unfocused state focuses B, and four further `focusNext()` calls cycle back to
B.  The registry of `elements.ts` instead ignores `tabIndex` entirely: its
focus order is pure registration order `[A, B, C, D]`, and its `focusNext()`
from the fresh state focuses A. -/
theorem focus_order_example_amended :
    fmExample.focusOrder = ["B", "D", "C", "A"]
      ∧ (fmFocusNext fmExample).focusedId = some "B"
      ∧ (fmFocusNext (fmFocusNext (fmFocusNext (fmFocusNext (fmFocusNext fmExample))))).focusedId
          = some "B"
      ∧ elExample.focusOrder = ["A", "B", "C", "D"]
      ∧ (elFocusNext elExample).2 = some "A" := by decide

theorem countP_focused_focusElement (l : List ElemState) (id : String) :
    (l.map (fun e => { e with focused := e.id = id })).countP (fun e => e.focused)
      = l.countP (fun e => e.id = id) := by
  induction l with
  | nil => rfl
  | cons e es ih => by_cases h : e.id = id <;> simp [List.countP_cons, h, ih]

theorem countP_id_le_one (l : List ElemState) (id : String)
    (hnd : (l.map ElemState.id).Nodup) : l.countP (fun e => e.id = id) ≤ 1 := by
  induction l with
  | nil => simp
  | cons e es ih =>
    simp only [List.map_cons, List.nodup_cons] at hnd
    by_cases h : e.id = id
    · have hzero : es.countP (fun e => e.id = id) = 0 := by
        rw [List.countP_eq_zero]
        intro a ha
        simp only [decide_eq_true_eq]
        intro hid
        exact hnd.1 (h ▸ hid ▸ List.mem_map_of_mem ElemState.id ha)
      simp [List.countP_cons, h, hzero]
    · simpa [List.countP_cons, h] using ih hnd.2

/-- C9: `focusElement(id)` leaves at most one registered element focused, and
when `id` is not in the registry it clears every `focused` flag, so
`getFocusedElement()` returns `undefined`. -/
theorem focusElement_focus_invariant (r : ElemRegistry) (id : String)
    (hnd : (r.elems.map ElemState.id).Nodup) :
    (focusElement r id).elems.countP (fun e => e.focused) ≤ 1
      ∧ (id ∉ r.elems.map ElemState.id → getFocusedElement (focusElement r id) = none) := by
  constructor
  · rw [focusElement, countP_focused_focusElement]
    exact countP_id_le_one r.elems id hnd
  · intro hid
    rw [getFocusedElement, focusElement]
    simp only [List.find?_eq_none, List.mem_map]
    rintro e ⟨a, ha, rfl⟩
    simp only [decide_eq_true_eq]
    intro h
    exact hid (h ▸ List.mem_map_of_mem ElemState.id ha)

/-- C9 witness: focusing a stale id on a concrete two-element registry leaves
no element focused. -/
theorem focusElement_focus_invariant_witness :
    (focusElement elExample "Z").elems.countP (fun e => e.focused) ≤ 1
      ∧ ("Z" ∉ elExample.elems.map ElemState.id
          → getFocusedElement (focusElement elExample "Z") = none) :=
  focusElement_focus_invariant elExample "Z" (by decide)

/-! ### Layout engine (part_003)

The layout module's `parseSize` distinguishes `undefined`/`'auto'`, plain
numbers, `"N%"` strings, `"Nblocks"` strings, other numeric strings, and
non-numeric strings (where `parseFloat` yields NaN); the prop value is
modelled as that case split.  All arithmetic is on JS numbers, modelled as
rationals. -/

inductive SizeProp where
  | undef
  | auto
  | num (q : ℚ)
  | pctStr (q : ℚ)
  | blocksStr (q : ℚ)
  | numStr (q : ℚ)
  | otherStr
deriving DecidableEq, Repr

/-- `parseSize(value, parentSize, defaultValue)`. -/
def parseSize (v : SizeProp) (parentSize defaultValue : ℚ) : ℚ :=
  match v with
  | .undef => defaultValue
  | .auto => defaultValue
  | .num q => (⌊q⌋ : ℚ)
  | .pctStr q => (⌊parentSize * (q / 100)⌋ : ℚ)
  | .blocksStr q => (⌊q⌋ : ℚ)
  | .numStr q => (⌊q⌋ : ℚ)
  | .otherStr => defaultValue

/-- `parseSize` with default `Infinity` (used for the max-constraints): `none`
stands for the `Infinity` default, in which case `Math.min(width, Infinity)`
leaves the width unchanged. -/
def parseSizeInfDefault (v : SizeProp) (parentSize : ℚ) : Option ℚ :=
  match v with
  | .undef => none
  | .auto => none
  | .num q => some (⌊q⌋ : ℚ)
  | .pctStr q => some (⌊parentSize * (q / 100)⌋ : ℚ)
  | .blocksStr q => some (⌊q⌋ : ℚ)
  | .numStr q => some (⌊q⌋ : ℚ)
  | .otherStr => none

inductive SpacingProp where
  | undef
  | all (q : ℚ)
  | vh (v h : ℚ)
  | trbl (t r b l : ℚ)
  | other
deriving DecidableEq, Repr

structure Spacing where
  top : ℚ
  right : ℚ
  bottom : ℚ
  left : ℚ
deriving DecidableEq, Repr

/-- `parseSpacing(value)`: scalar, `[v, h]`, `[t, r, b, l]`, else zero. -/
def parseSpacing : SpacingProp → Spacing
  | .undef => ⟨0, 0, 0, 0⟩
  | .all q => ⟨q, q, q, q⟩
  | .vh v h => ⟨v, h, v, h⟩
  | .trbl t r b l => ⟨t, r, b, l⟩
  | .other => ⟨0, 0, 0, 0⟩

inductive BorderProp where
  | undef
  | bnone
  | single
  | double
  | rounded
  | bbold
  | dashed
deriving DecidableEq, Repr

/-- `getBorderThickness(border)`: 0 for missing/`'none'`, else 1 cell. -/
def getBorderThickness : BorderProp → ℚ
  | .undef => 0
  | .bnone => 0
  | _ => 1

inductive FlexDir where
  | row
  | column
  | rowReverse
  | columnReverse
deriving DecidableEq, Repr

inductive JustifyContent where
  | flexStart
  | flexEnd
  | center
  | spaceBetween
  | spaceAround
  | spaceEvenly
deriving DecidableEq, Repr

inductive AlignItems where
  | flexStart
  | flexEnd
  | center
  | stretch
  | baseline
deriving DecidableEq, Repr

inductive PositionProp where
  | relative
  | absolute
  | fixed
deriving DecidableEq, Repr

/-- The style props consumed by the layout module (`StyleProps` fields it
reads; `gap` models `props.gap || 0`, `scrollX`/`scrollY` model the
`typeof props.scrollX === 'number'` check). -/
structure Props where
  width : SizeProp := .undef
  height : SizeProp := .undef
  minWidth : SizeProp := .undef
  maxWidth : SizeProp := .undef
  minHeight : SizeProp := .undef
  maxHeight : SizeProp := .undef
  padding : SpacingProp := .undef
  margin : SpacingProp := .undef
  border : BorderProp := .undef
  flexDirection : Option FlexDir := none
  justifyContent : Option JustifyContent := none
  alignItems : Option AlignItems := none
  gap : Option ℚ := none
  position : Option PositionProp := none
  top : SizeProp := .undef
  left : SizeProp := .undef
  right : SizeProp := .undef
  bottom : SizeProp := .undef
  scrollX : Option ℚ := none
  scrollY : Option ℚ := none
deriving DecidableEq, Repr

/-- A VNode tree as the layout engine sees it after `normalizeChildren`: an
element with a tag, props and a flat child list, or a text child. -/
inductive VTree where
  | elem (ty : String) (props : Props) (children : List VTree)
  | textNode (s : String)
deriving Repr

structure MSize where
  width : ℚ
  height : ℚ
deriving DecidableEq, Repr

/-- `measureText(text)`: split on newlines, width = widest line in code
points, height = line count.  (`stripAnsi` is the identity on the escape-free
strings modelled here; `textWidth` counts code points, as `String.length`
does.) -/
def measureText (s : String) : MSize :=
  let lines := s.splitOn "\n"
  ⟨((lines.map (fun l => (l.length : ℚ))).foldl max 0), (lines.length : ℚ)⟩

mutual

/-- `measureChild` / `measureNode` of part_003: text children measure as text;
elements resolve explicit sizes via `parseSize`, fall back to summing/maxing
children along the flex direction plus padding and border, give form elements
a minimum 1-line height, and apply the min/max constraints. -/
def measureChild : VTree → ℚ → ℚ → MSize
  | .textNode s, _, _ => measureText s
  | .elem ty props children, parentWidth, parentHeight =>
    let padding := parseSpacing props.padding
    let borderSize := getBorderThickness props.border
    let paddingH := padding.left + padding.right + borderSize * 2
    let paddingV := padding.top + padding.bottom + borderSize * 2
    let width0 := parseSize props.width parentWidth 0
    let height0 := parseSize props.height parentHeight 0
    let dir := props.flexDirection.getD .column
    let gap := props.gap.getD 0
    let content :=
      if width0 = 0 ∨ height0 = 0 then
        measureKids children 0 dir gap (parentWidth - paddingH) (parentHeight - paddingV) 0 0
      else ⟨0, 0⟩
    let width1 := if width0 = 0 then content.width + paddingH else width0
    let height1 := if height0 = 0 then content.height + paddingV else height0
    let isFormElement :=
      ty = "input" ∨ ty = "textbox" ∨ ty = "button" ∨ ty = "checkbox" ∨ ty = "select"
    let explicitHeight := 0 < parseSize props.height parentHeight 0
    let height2 := if isFormElement ∧ ¬explicitHeight ∧ height1 = 0 then 1 + paddingV else height1
    let width2 :=
      if props.minWidth ≠ .undef then max width1 (parseSize props.minWidth parentWidth 0)
      else width1
    let width3 :=
      if props.maxWidth = .undef then width2
      else match parseSizeInfDefault props.maxWidth parentWidth with
        | none => width2
        | some v => min width2 v
    let height3 :=
      if props.minHeight ≠ .undef then max height2 (parseSize props.minHeight parentHeight 0)
      else height2
    let height4 :=
      if props.maxHeight = .undef then height3
      else match parseSizeInfDefault props.maxHeight parentHeight with
        | none => height3
        | some v => min height3 v
    ⟨width3, height4⟩

/-- The child-measuring loop inside `measureNode`: along the main axis sizes
add (with `gap` between items), along the cross axis they max. -/
def measureKids : List VTree → ℕ → FlexDir → ℚ → ℚ → ℚ → ℚ → ℚ → MSize
  | [], _, _, _, _, _, cw, ch => ⟨cw, ch⟩
  | c :: cs, i, dir, gap, pw, ph, cw, ch =>
    let m := measureChild c pw ph
    match dir with
    | .row | .rowReverse =>
      measureKids cs (i + 1) dir gap pw ph (cw + m.width + (if 0 < i then gap else 0))
        (max ch m.height)
    | _ =>
      measureKids cs (i + 1) dir gap pw ph (max cw m.width)
        (ch + m.height + (if 0 < i then gap else 0))

end

/-- The measured sizes of all children (`children.map(measureChild)` inside
`layoutNode`). -/
def measureSizes (cs : List VTree) (pw ph : ℚ) : List MSize :=
  cs.map (fun c => measureChild c pw ph)

/-- `totalMainSize`: `childSizes.reduce((sum, s, i) => sum + main + (i > 0 ? gap : 0), 0)`. -/
def totalMain : List MSize → Bool → ℚ → ℕ → ℚ → ℚ
  | [], _, _, _, acc => acc
  | s :: rest, isRow, gap, i, acc =>
    totalMain rest isRow gap (i + 1)
      (acc + (if isRow then s.width else s.height) + (if 0 < i then gap else 0))

/-- The `justifyContent` switch of `layoutNode`: initial main position and the
gap between items.  (`space-around`/`space-evenly` divide by the child count
without a guard; on an empty child list the loop never runs, so the Lean
convention `q / 0 = 0` has no observable effect.) -/
def justifyInit (justify : JustifyContent) (freeSpace gap : ℚ) (len : ℕ) : ℚ × ℚ :=
  match justify with
  | .flexStart => (0, gap)
  | .flexEnd => (freeSpace, gap)
  | .center => (freeSpace / 2, gap)
  | .spaceBetween => (0, if 1 < len then freeSpace / ((len : ℚ) - 1) + gap else gap)
  | .spaceAround => ((freeSpace / (len : ℚ)) / 2, freeSpace / (len : ℚ))
  | .spaceEvenly => (freeSpace / ((len : ℚ) + 1), freeSpace / ((len : ℚ) + 1))

/-- The `alignItems` switch: cross-axis offset of a child (`stretch` leaves the
offset 0 and — per the source comment — does not modify the child size). -/
def alignCross (align : AlignItems) (availableCross crossSize : ℚ) : ℚ :=
  match align with
  | .flexEnd => availableCross - crossSize
  | .center => (availableCross - crossSize) / 2
  | _ => 0

structure RectQ where
  x : ℚ
  y : ℚ
  width : ℚ
  height : ℚ
deriving DecidableEq, Repr

inductive LayoutNodeQ where
  | mk (rect : RectQ) (children : List LayoutNodeQ) (scrollX scrollY contentWidth contentHeight : ℚ)
deriving Repr

def LayoutNodeQ.rect : LayoutNodeQ → RectQ
  | .mk r _ _ _ _ _ => r

def LayoutNodeQ.children : LayoutNodeQ → List LayoutNodeQ
  | .mk _ c _ _ _ _ => c

def LayoutNodeQ.scrollX : LayoutNodeQ → ℚ
  | .mk _ _ sx _ _ _ => sx

def LayoutNodeQ.scrollY : LayoutNodeQ → ℚ
  | .mk _ _ _ sy _ _ => sy

def LayoutNodeQ.contentWidth : LayoutNodeQ → ℚ
  | .mk _ _ _ _ cw _ => cw

def LayoutNodeQ.contentHeight : LayoutNodeQ → ℚ
  | .mk _ _ _ _ _ ch => ch

/-- The result of the child-layout loop: the child layout nodes plus the
tracked content extents. -/
structure KidsResult where
  kids : List LayoutNodeQ
  cw : ℚ
  ch : ℚ

/-- The resolved outer size of an element in `layoutNode`: the measured size,
overridden by the parent size when the prop is literally the string `'100%'`. -/
def resolvedSize (ty : String) (props : Props) (children : List VTree)
    (parentWidth parentHeight : ℚ) : MSize :=
  let size := measureChild (.elem ty props children) parentWidth parentHeight
  ⟨if props.width = .pctStr 100 then parentWidth else size.width,
   if props.height = .pctStr 100 then parentHeight else size.height⟩

/-- The inner content height of an element (`height - vertical padding -
2·border`), as computed inside `layoutNode`. -/
def innerHeightOf (ty : String) (props : Props) (children : List VTree)
    (parentWidth parentHeight : ℚ) : ℚ :=
  (resolvedSize ty props children parentWidth parentHeight).height
    - (parseSpacing props.padding).top - (parseSpacing props.padding).bottom
    - getBorderThickness props.border * 2

/-- The inner content width of an element, as computed inside `layoutNode`. -/
def innerWidthOf (ty : String) (props : Props) (children : List VTree)
    (parentWidth parentHeight : ℚ) : ℚ :=
  (resolvedSize ty props children parentWidth parentHeight).width
    - (parseSpacing props.padding).left - (parseSpacing props.padding).right
    - getBorderThickness props.border * 2

mutual

/-- `layoutNode(node, ctx)` of part_003: resolve the rect (margins, absolute
positioning), position the measured children along the main axis per
`justifyContent` and the cross axis per `alignItems`, track the content
extents, reverse for `*-reverse` directions, and clamp the scroll offsets.
(The source creates the synthetic layout node for a text child inline in the
loop; here the text case of `layoutNode` builds the same node.) -/
def layoutNode : VTree → ℚ → ℚ → ℚ → ℚ → LayoutNodeQ
  | .textNode s, _, _, cx, cy =>
    let m := measureText s
    .mk ⟨cx, cy, m.width, m.height⟩ [] 0 0 m.width m.height
  | .elem ty props children, parentWidth, parentHeight, cx, cy =>
    let padding := parseSpacing props.padding
    let margin := parseSpacing props.margin
    let borderSize := getBorderThickness props.border
    let size := resolvedSize ty props children parentWidth parentHeight
    let width := size.width
    let height := size.height
    let x0 := cx + margin.left
    let y0 := cy + margin.top
    let isAbs := props.position = some .absolute ∨ props.position = some .fixed
    let x1 := if isAbs ∧ props.left ≠ .undef then parseSize props.left parentWidth 0 else x0
    let x := if isAbs ∧ props.right ≠ .undef then
        parentWidth - width - parseSize props.right parentWidth 0
      else x1
    let y1 := if isAbs ∧ props.top ≠ .undef then parseSize props.top parentHeight 0 else y0
    let y := if isAbs ∧ props.bottom ≠ .undef then
        parentHeight - height - parseSize props.bottom parentHeight 0
      else y1
    let dir := props.flexDirection.getD .column
    let justify := props.justifyContent.getD .flexStart
    let align := props.alignItems.getD .flexStart
    let gap := props.gap.getD 0
    let innerX := x + padding.left + borderSize
    let innerY := y + padding.top + borderSize
    let innerWidth := innerWidthOf ty props children parentWidth parentHeight
    let innerHeight := innerHeightOf ty props children parentWidth parentHeight
    let childSizes := measureSizes children innerWidth innerHeight
    let isRow := dir = .row ∨ dir = .rowReverse
    let totalMainSize := totalMain childSizes isRow gap 0 0
    let availableMain := if isRow then innerWidth else innerHeight
    let freeSpace := availableMain - totalMainSize
    let jp := justifyInit justify freeSpace gap children.length
    let res := layoutKids children childSizes isRow align jp.1 jp.2
        innerX innerY innerWidth innerHeight 0 0
    let kids := if dir = .rowReverse ∨ dir = .columnReverse then res.kids.reverse else res.kids
    let maxScrollX := max 0 (res.cw - max 0 innerWidth)
    let maxScrollY := max 0 (res.ch - max 0 innerHeight)
    let sX := min (max (⌊props.scrollX.getD 0⌋ : ℚ) 0) maxScrollX
    let sY := min (max (⌊props.scrollY.getD 0⌋ : ℚ) 0) maxScrollY
    .mk ⟨x, y, width, height⟩ kids sX sY res.cw res.ch

/-- The child loop of `layoutNode`: place each child at the running main
position (cross position per `alignItems`), recurse, track content extents
from the child's *measured* size, then advance by that size plus the gap. -/
def layoutKids : List VTree → List MSize → Bool → AlignItems → ℚ → ℚ → ℚ → ℚ → ℚ → ℚ → ℚ → ℚ →
    KidsResult
  | [], _, _, _, _, _, _, _, _, _, cw, ch => ⟨[], cw, ch⟩
  | c :: cs, ss, isRow, align, mainPos, mainGap, innerX, innerY, innerW, innerH, cw, ch =>
    let s := ss.headD ⟨0, 0⟩
    let crossSize := if isRow then s.height else s.width
    let availableCross := if isRow then innerH else innerW
    let crossPos := alignCross align availableCross crossSize
    let childX := if isRow then innerX + mainPos else innerX + crossPos
    let childY := if isRow then innerY + crossPos else innerY + mainPos
    let childLayout := layoutNode c innerW innerH childX childY
    let cw1 := max cw (childX - innerX + s.width)
    let ch1 := max ch (childY - innerY + s.height)
    let mainPos1 := mainPos + (if isRow then s.width else s.height) + mainGap
    let rest := layoutKids cs ss.tail isRow align mainPos1 mainGap
        innerX innerY innerW innerH cw1 ch1
    ⟨childLayout :: rest.kids, rest.cw, rest.ch⟩

end

/-- `layout(node, screenWidth, screenHeight)`. -/
def layout (node : VTree) (screenWidth screenHeight : ℚ) : LayoutNodeQ :=
  layoutNode node screenWidth screenHeight 0 0

/-! ### `layoutFlexChildren` (layout.ts)

The second flex implementation of the repository: it first distributes free
space to `flex`-factor children, then computes the justify offset/spacer with
`Math.max(0, ·)` guards, and floors the main-axis positions.  `flexs` is the
list of `childProps?.[i]?.flex || 0` factors (missing entries are 0). -/

structure FlexBox where
  x : ℚ
  y : ℚ
  width : ℚ
  height : ℚ
deriving DecidableEq, Repr

/-- The first `forEach`: total fixed main size of non-flex children and total
flex factor. -/
def flexTotals : List FlexBox → List ℚ → Bool → ℚ × ℚ
  | [], _, _ => (0, 0)
  | c :: cs, fs, isRow =>
    let flex := fs.headD 0
    let rest := flexTotals cs fs.tail isRow
    if 0 < flex then (rest.1, flex + rest.2)
    else ((if isRow then c.width else c.height) + rest.1, rest.2)

/-- The second `forEach`: flex children get `Math.floor(flexUnit * flex)` as
their main size. -/
def flexApplyUnits : List FlexBox → List ℚ → Bool → ℚ → List FlexBox
  | [], _, _, _ => []
  | c :: cs, fs, isRow, unit =>
    let flex := fs.headD 0
    let c1 :=
      if 0 < flex then
        if isRow then { c with width := (⌊unit * flex⌋ : ℚ) }
        else { c with height := (⌊unit * flex⌋ : ℚ) }
      else c
    c1 :: flexApplyUnits cs fs.tail isRow unit

/-- `totalMain`: sum of main sizes plus a gap before every child but the first. -/
def flexTotalMain : List FlexBox → Bool → ℚ → ℕ → ℚ → ℚ
  | [], _, _, _, acc => acc
  | c :: cs, isRow, gap, i, acc =>
    flexTotalMain cs isRow gap (i + 1)
      (acc + (if isRow then c.width else c.height) + (if 0 < i then gap else 0))

/-- The justify branch of `layoutFlexChildren`: `(mainOffset, spacer)`. -/
def flexJustify (justify : JustifyContent) (mainSize totalMainQ gap : ℚ) (len : ℕ) : ℚ × ℚ :=
  match justify with
  | .center => (max 0 ((mainSize - totalMainQ) / 2), 0)
  | .flexEnd => (max 0 (mainSize - totalMainQ), 0)
  | .spaceBetween =>
    if 1 < len then
      (0, max 0 ((mainSize - totalMainQ + ((len : ℚ) - 1) * gap) / ((len : ℚ) - 1)))
    else (0, 0)
  | .spaceAround =>
    if 0 < len then
      let sp := max 0 ((mainSize - totalMainQ + ((len : ℚ) - 1) * gap) / (len : ℚ))
      (sp / 2, sp)
    else (0, 0)
  | .spaceEvenly =>
    if 0 < len then
      let sp := max 0 ((mainSize - totalMainQ + ((len : ℚ) - 1) * gap) / ((len : ℚ) + 1))
      (sp, sp)
    else (0, 0)
  | _ => (0, 0)

/-- The placement loop: floor the running main offset into the child's
position, set the cross position per `alignItems`, and advance by the child's
main size plus `spacer || gap`. -/
def flexPlace : List FlexBox → Bool → AlignItems → ℚ → ℚ → ℚ → ℚ → List FlexBox
  | [], _, _, _, _, _, _ => []
  | c :: cs, isRow, align, mainOffset, spacer, gap, crossSize =>
    let c1 :=
      if isRow then
        let base := { c with x := (⌊mainOffset⌋ : ℚ) }
        match align with
        | .center => { base with y := (⌊(crossSize - c.height) / 2⌋ : ℚ) }
        | .flexEnd => { base with y := crossSize - c.height }
        | .stretch => { base with y := 0, height := crossSize }
        | _ => { base with y := 0 }
      else
        let base := { c with y := (⌊mainOffset⌋ : ℚ) }
        match align with
        | .center => { base with x := (⌊(crossSize - c.width) / 2⌋ : ℚ) }
        | .flexEnd => { base with x := crossSize - c.width }
        | .stretch => { base with x := 0, width := crossSize }
        | _ => { base with x := 0 }
    let advance := (if isRow then c.width else c.height) + (if spacer = 0 then gap else spacer)
    c1 :: flexPlace cs isRow align (mainOffset + advance) spacer gap crossSize

/-- `layoutFlexChildren(children, containerW, containerH, props, childProps)`
of layout.ts (`dir`/`justify`/`align`/`gap` are the defaulted props). -/
def layoutFlexChildren (children : List FlexBox) (flexs : List ℚ) (containerW containerH : ℚ)
    (dir : FlexDir) (justify : JustifyContent) (align : AlignItems) (gap : ℚ) : List FlexBox :=
  let isRow := dir = .row ∨ dir = .rowReverse
  let t := flexTotals children flexs isRow
  let totalFixed := t.1 + ((children.length : ℚ) - 1) * gap
  let mainSize := if isRow then containerW else containerH
  let freeSpace := max 0 (mainSize - totalFixed)
  let flexUnit := if 0 < t.2 then freeSpace / t.2 else 0
  let children1 := flexApplyUnits children flexs isRow flexUnit
  let totalMainQ := flexTotalMain children1 isRow gap 0 0
  let jp := flexJustify justify mainSize totalMainQ gap children.length
  let crossSize := if isRow then containerH else containerW
  flexPlace children1 isRow align jp.1 jp.2 gap crossSize

/-! ### Evaluation helpers for the concrete layout claims -/

theorem sizeProp_num_ne_pctStr (q p : ℚ) : (SizeProp.num q = SizeProp.pctStr p) = False := by
  simp

theorem sizeProp_undef_ne_pctStr (p : ℚ) : (SizeProp.undef = SizeProp.pctStr p) = False := by
  simp

theorem measureChild_unit (pw ph : ℚ) :
    measureChild (.elem "box" { width := .num 1, height := .num 1 } []) pw ph = ⟨1, 1⟩ := by
  norm_num [measureChild, measureKids, parseSize, parseSpacing,
    getBorderThickness, parseSizeInfDefault]

theorem layoutNode_unit (pw ph cx cy : ℚ) :
    layoutNode (.elem "box" { width := .num 1, height := .num 1 } []) pw ph cx cy
      = .mk ⟨cx, cy, 1, 1⟩ [] 0 0 0 0 := by
  norm_num [layoutNode, resolvedSize, measureChild_unit, measureSizes, layoutKids,
    totalMain, justifyInit, innerWidthOf, innerHeightOf, parseSize, parseSpacing,
    getBorderThickness, sizeProp_num_ne_pctStr, sizeProp_undef_ne_pctStr, min_def, max_def]

theorem measureChild_tall (pw ph : ℚ) :
    measureChild (.elem "box" { width := .num 1, height := .num 50 } []) pw ph = ⟨1, 50⟩ := by
  norm_num [measureChild, measureKids, parseSize, parseSpacing,
    getBorderThickness, parseSizeInfDefault]

theorem layoutNode_tall (pw ph cx cy : ℚ) :
    layoutNode (.elem "box" { width := .num 1, height := .num 50 } []) pw ph cx cy
      = .mk ⟨cx, cy, 1, 50⟩ [] 0 0 0 0 := by
  norm_num [layoutNode, resolvedSize, measureChild_tall, measureSizes, layoutKids,
    totalMain, justifyInit, innerWidthOf, innerHeightOf, parseSize, parseSpacing,
    getBorderThickness, sizeProp_num_ne_pctStr, sizeProp_undef_ne_pctStr, min_def, max_def]

theorem measureChild_ten (pw ph : ℚ) :
    measureChild (.elem "box" { width := .num 10, height := .num 1 } []) pw ph = ⟨10, 1⟩ := by
  norm_num [measureChild, measureKids, parseSize, parseSpacing,
    getBorderThickness, parseSizeInfDefault]

theorem layoutNode_ten (pw ph cx cy : ℚ) :
    layoutNode (.elem "box" { width := .num 10, height := .num 1 } []) pw ph cx cy
      = .mk ⟨cx, cy, 10, 1⟩ [] 0 0 0 0 := by
  norm_num [layoutNode, resolvedSize, measureChild_ten, measureSizes, layoutKids,
    totalMain, justifyInit, innerWidthOf, innerHeightOf, parseSize, parseSpacing,
    getBorderThickness, sizeProp_num_ne_pctStr, sizeProp_undef_ne_pctStr, min_def, max_def]

/-! ### C3: the space-between example -/

/-- A row container of width 40 with `justifyContent: space-between` and three
children of width 10. -/
def spaceBetweenRow : VTree :=
  .elem "box" { width := .num 40, flexDirection := some .row,
                justifyContent := some .spaceBetween }
    [.elem "box" { width := .num 10, height := .num 1 } [],
     .elem "box" { width := .num 10, height := .num 1 } [],
     .elem "box" { width := .num 10, height := .num 1 } []]

/-- C3: a flex row of inner width 40 with `justifyContent: space-between`,
gap 0 and three children of width 10 places them at main-axis offsets
0, 15 and 30 (free space 10 split into two spacers of 5) — in both the
`layoutFlexChildren` implementation of layout.ts and the `layoutNode`
implementation of part_003. -/
theorem space_between_positions :
    ((layoutFlexChildren [⟨0, 0, 10, 1⟩, ⟨0, 0, 10, 1⟩, ⟨0, 0, 10, 1⟩] [] 40 5
        .row .spaceBetween .flexStart 0).map (fun c => c.x)) = [0, 15, 30]
      ∧ ((layout spaceBetweenRow 40 24).children.map (fun k => k.rect.x)) = [0, 15, 30] := by
  constructor
  · norm_num [layoutFlexChildren, flexTotals, flexApplyUnits, flexTotalMain, flexJustify,
      flexPlace, min_def, max_def]
  · norm_num [layout, layoutNode, spaceBetweenRow, resolvedSize, measureChild_ten,
      layoutNode_ten, measureChild, measureKids, measureSizes, layoutKids, totalMain,
      justifyInit, alignCross, innerWidthOf, innerHeightOf, parseSize, parseSpacing,
      getBorderThickness, parseSizeInfDefault, LayoutNodeQ.children, LayoutNodeQ.rect,
      sizeProp_num_ne_pctStr, sizeProp_undef_ne_pctStr, min_def, max_def]
    decide

/-! ### C4: negative explicit sizes -/

/-- A box with the invalid explicit width −5. -/
def negWidthNode : VTree := .elem "box" { width := .num (-5) } []

theorem measureChild_negWidth :
    measureChild (.elem "box" { width := .num (-5) } []) 80 24 = ⟨-5, 0⟩ := by
  norm_num [measureChild, measureKids, parseSize, parseSpacing,
    getBorderThickness, parseSizeInfDefault]
  decide

/-- C4: a negative explicit width is *not* normalized to 0 — `parseSize`
returns the floored negative number unchanged, and layout propagates it into
the resulting Rect, whose width is −5 < 0. -/
theorem negative_width_propagates :
    parseSize (.num (-5)) 80 0 = -5
      ∧ (layout negWidthNode 80 24).rect.width = -5
      ∧ (layout negWidthNode 80 24).rect.width < 0 := by
  refine ⟨by norm_num [parseSize], ?_, ?_⟩
  all_goals norm_num [layout, layoutNode, negWidthNode, resolvedSize, measureChild_negWidth,
    measureSizes, layoutKids, totalMain, justifyInit, innerWidthOf, innerHeightOf,
    parseSize, parseSpacing, getBorderThickness, LayoutNodeQ.rect,
    sizeProp_num_ne_pctStr, sizeProp_undef_ne_pctStr, min_def, max_def]

/-! ### C5: scroll clamping -/

def scrollCEprops : Props := { height := .num 2, padding := .all 2, scrollY := some 5 }

def scrollCEkids : List VTree := [.elem "box" { width := .num 1, height := .num 1 } []]

/-- A box of explicit height 2 with padding 2 on each side (inner height −2),
one 1×1 child (content height 1), and a `scrollY` prop of 5. -/
def scrollCE : VTree := .elem "box" scrollCEprops scrollCEkids

def scrollBig : VTree :=
  .elem "box" { height := .num 20, scrollY := some 1000 }
    [.elem "box" { width := .num 1, height := .num 50 } []]

def scrollNeg : VTree :=
  .elem "box" { height := .num 20, scrollY := some (-5) }
    [.elem "box" { width := .num 1, height := .num 50 } []]

/-- C5 counterexample: for a node with content height 1 and inner height −2,
the code resolves a `scrollY` prop of 5 to 1 — it clamps to
`[0, max(0, content − max(0, inner))]` — whereas the claim's interval
`[0, max(0, content − inner)]` would resolve it to 3.  The general clamping
formula of the claim is therefore false on the code. -/
theorem scroll_clamp_claim_counterexample :
    (layout scrollCE 80 24).contentHeight = 1
      ∧ innerHeightOf "box" scrollCEprops scrollCEkids 80 24 = -2
      ∧ (layout scrollCE 80 24).scrollY = 1
      ∧ min (max (⌊(5 : ℚ)⌋ : ℚ) 0)
          (max 0 ((layout scrollCE 80 24).contentHeight
                    - innerHeightOf "box" scrollCEprops scrollCEkids 80 24)) = 3
      ∧ (layout scrollCE 80 24).scrollY
          ≠ min (max (⌊(5 : ℚ)⌋ : ℚ) 0)
              (max 0 ((layout scrollCE 80 24).contentHeight
                        - innerHeightOf "box" scrollCEprops scrollCEkids 80 24)) := by
  have h1 : (layout scrollCE 80 24).contentHeight = 1 := by
    norm_num [layout, layoutNode, scrollCE, scrollCEprops, scrollCEkids, resolvedSize,
      measureChild_unit, layoutNode_unit, measureChild, measureKids, measureSizes,
      layoutKids, totalMain, justifyInit, alignCross, innerWidthOf, innerHeightOf,
      parseSize, parseSpacing, getBorderThickness, parseSizeInfDefault,
      LayoutNodeQ.contentHeight, sizeProp_num_ne_pctStr, sizeProp_undef_ne_pctStr,
      min_def, max_def]
  have h2 : innerHeightOf "box" scrollCEprops scrollCEkids 80 24 = -2 := by
    norm_num [innerHeightOf, resolvedSize, scrollCEprops, scrollCEkids, measureChild_unit,
      measureChild, measureKids, parseSize, parseSpacing, getBorderThickness,
      parseSizeInfDefault, sizeProp_num_ne_pctStr, sizeProp_undef_ne_pctStr]
  have h3 : (layout scrollCE 80 24).scrollY = 1 := by
    norm_num [layout, layoutNode, scrollCE, scrollCEprops, scrollCEkids, resolvedSize,
      measureChild_unit, layoutNode_unit, measureChild, measureKids, measureSizes,
      layoutKids, totalMain, justifyInit, alignCross, innerWidthOf, innerHeightOf,
      parseSize, parseSpacing, getBorderThickness, parseSizeInfDefault,
      LayoutNodeQ.scrollY, sizeProp_num_ne_pctStr, sizeProp_undef_ne_pctStr,
      min_def, max_def]
  have h4 : min (max (⌊(5 : ℚ)⌋ : ℚ) 0)
      (max 0 ((layout scrollCE 80 24).contentHeight
                - innerHeightOf "box" scrollCEprops scrollCEkids 80 24)) = 3 := by
    rw [h1, h2]; norm_num
  exact ⟨h1, h2, h3, h4, by rw [h3, h4]; norm_num⟩

/-- C5 (amended): `scrollX`/`scrollY` are read from props, floored, and clamped
to `[0, max(0, content − max(0, inner))]` — the inner size is clamped to 0
before subtracting, which coincides with the claim's interval whenever the
inner size is non-negative; concretely, with content height 50 and inner
height 20 a `scrollY` prop of 1000 resolves to 30 and a prop of −5 resolves
to 0. -/
theorem scroll_clamp_amended :
    (∀ (ty : String) (props : Props) (children : List VTree) (pw ph cx cy : ℚ),
        (layoutNode (.elem ty props children) pw ph cx cy).scrollY
          = min (max (⌊props.scrollY.getD 0⌋ : ℚ) 0)
              (max 0 ((layoutNode (.elem ty props children) pw ph cx cy).contentHeight
                        - max 0 (innerHeightOf ty props children pw ph))))
      ∧ (∀ (ty : String) (props : Props) (children : List VTree) (pw ph cx cy : ℚ),
          (layoutNode (.elem ty props children) pw ph cx cy).scrollX
            = min (max (⌊props.scrollX.getD 0⌋ : ℚ) 0)
                (max 0 ((layoutNode (.elem ty props children) pw ph cx cy).contentWidth
                          - max 0 (innerWidthOf ty props children pw ph))))
      ∧ (layout scrollBig 80 24).scrollY = 30
      ∧ (layout scrollNeg 80 24).scrollY = 0 := by
  refine ⟨fun _ _ _ _ _ _ _ => rfl, fun _ _ _ _ _ _ _ => rfl, ?_, ?_⟩ <;>
  · norm_num [layout, layoutNode, scrollBig, scrollNeg, resolvedSize, measureChild_tall,
      layoutNode_tall, measureChild, measureKids, measureSizes, layoutKids, totalMain,
      justifyInit, alignCross, innerWidthOf, innerHeightOf, parseSize, parseSpacing,
      getBorderThickness, parseSizeInfDefault, LayoutNodeQ.scrollY,
      sizeProp_num_ne_pctStr, sizeProp_undef_ne_pctStr, min_def, max_def]

/-! ### Exit idempotence (C8)

Two exit implementations exist: the `exit` closure of `run()` in tui.ts,
guarded by the `running` flag, and the `exit` closure of `createApp()`, which
sets `isRunning = false` but performs the terminal-restore writes
unconditionally on every call.  The terminal-restore side effects are modelled
as an effect trace. -/

inductive TermEffect where
  | disableMouseReporting
  | styleReset
  | showCursor
  | leaveAltScreen
  | detachInput
  | detachResize
  | onExitCallback
  | clearRenderTimer
deriving DecidableEq, Repr

structure RunState where
  running : Bool
deriving DecidableEq, Repr

/-- The effect sequence of tui.ts `run()`'s exit body: disable mouse
reporting, write `\x1b[0m\x1b[?25h\x1b[?1049l` (style reset, show cursor,
leave alternate screen), detach the stdin handler (raw mode off, pause),
detach the resize listener, fire `onExit`. -/
def runRestoreEffects : List TermEffect :=
  [.disableMouseReporting, .styleReset, .showCursor, .leaveAltScreen,
   .detachInput, .detachResize, .onExitCallback]

/-- tui.ts `run()`'s `exit`: `if (!running) return` guards the whole body. -/
def runExit (s : RunState) : RunState × List TermEffect :=
  if ¬s.running then (s, [])
  else ({ running := false }, runRestoreEffects)

/-- `n` consecutive invocations of `run()`'s exit, with the emitted effects
concatenated in order. -/
def runExitIter : RunState → ℕ → RunState × List TermEffect
  | s, 0 => (s, [])
  | s, n + 1 =>
    let once := runExit s
    let rest := runExitIter once.1 n
    (rest.1, once.2 ++ rest.2)

structure AppState where
  isRunning : Bool
  timerPending : Bool
deriving DecidableEq, Repr

/-- The restore writes of `createApp()`'s exit: leave the alternate screen
(when `altScreen`), disable mouse reporting (when `mouse`), show the cursor,
reset styles, stop input, detach the resize listener. -/
def appRestoreEffects (altScreen mouse : Bool) : List TermEffect :=
  (if altScreen then [.leaveAltScreen] else [])
    ++ (if mouse then [.disableMouseReporting] else [])
    ++ [.showCursor, .styleReset, .detachInput, .detachResize]

/-- `createApp()`'s `exit`: sets `isRunning = false` and clears a pending
render timer, then performs the restore writes unconditionally — there is no
`isRunning` guard. -/
def appExit (altScreen mouse : Bool) (s : AppState) : AppState × List TermEffect :=
  ({ isRunning := false, timerPending := false },
   (if s.timerPending then [.clearRenderTimer] else []) ++ appRestoreEffects altScreen mouse)

/-- `n` consecutive invocations of `createApp()`'s exit. -/
def appExitIter (altScreen mouse : Bool) : AppState → ℕ → AppState × List TermEffect
  | s, 0 => (s, [])
  | s, n + 1 =>
    let once := appExit altScreen mouse s
    let rest := appExitIter altScreen mouse once.1 n
    (rest.1, once.2 ++ rest.2)

/-- C8 counterexample: invoking `createApp()`'s exit twice from the running
state performs the terminal-restore writes twice — the style reset (and every
other restore effect) appears twice in the trace, not exactly once. -/
theorem createApp_exit_restores_twice :
    (appExitIter true true { isRunning := true, timerPending := false } 2).2
        = appRestoreEffects true true ++ appRestoreEffects true true
      ∧ ((appExitIter true true { isRunning := true, timerPending := false } 2).2.count
          .styleReset) = 2 := by decide

theorem runExitIter_stopped (n : ℕ) :
    runExitIter { running := false } n = ({ running := false }, []) := by
  induction n with
  | zero => rfl
  | succ m ih => simp [runExitIter, runExit, ih]

theorem appExitIter_trace (altScreen mouse : Bool) (n : ℕ) :
    (appExitIter altScreen mouse { isRunning := false, timerPending := false } n).2
      = (List.replicate n (appRestoreEffects altScreen mouse)).flatten := by
  induction n with
  | zero => rfl
  | succ m ih => simp [appExitIter, appExit, ih, List.replicate_succ]

/-- C8 (amended): tui.ts `run()`'s exit is idempotent — any positive number of
consecutive invocations from the running state emits the terminal-restore
sequence exactly once and leaves `running = false`; `createApp()`'s exit is
safe to call repeatedly (it never faults and keeps `isRunning = false`) but
re-emits the restore writes on every invocation: `n + 1` calls emit the
sequence `n + 1` times. -/
theorem exit_idempotence (n : ℕ) :
    runExitIter { running := true } (n + 1) = ({ running := false }, runRestoreEffects)
      ∧ (appExitIter true true { isRunning := true, timerPending := false } (n + 1)).2
          = (List.replicate (n + 1) (appRestoreEffects true true)).flatten := by
  constructor
  · simp [runExitIter, runExit, runExitIter_stopped]
  · simp [appExitIter, appExit, appExitIter_trace, List.replicate_succ]

/-! ### Full and diff ANSI serialization (C6)

`ScreenBuffer.render()` and `renderDiff()` of the `elements.md` render
pipeline emit strings of cursor moves, SGR codes and characters.  The emitted
string is modelled as a list of terminal commands, one per escape sequence or
character: `\x1b[{r};{c}H` ↦ `moveCursor r c`, `\x1b[0m` ↦ `reset`,
`\x1b[38;2;r;g;bm` ↦ `setFg`, `\x1b[48;2;r;g;bm` ↦ `setBg`, a style code ↦
`setStyle`, and each cell character ↦ `putChar`.  `fgColor`/`bgColor`
(colors.ts) return the empty string for a missing color or one with alpha 0 —
they emit no command. -/

inductive SGRStyle where
  | bold
  | dim
  | italic
  | underline
  | strikethrough
  | inverse
deriving DecidableEq, Repr

inductive TermCmd where
  | moveCursor (row col : ℕ)
  | reset
  | setFg (c : RGBA)
  | setBg (c : RGBA)
  | setStyle (s : SGRStyle)
  | putChar (ch : Char)
deriving DecidableEq, Repr

/-- `fgColor(color)`: empty output for `undefined`/`null` or alpha 0. -/
def fgColorCmds : Option RGBA → List TermCmd
  | none => []
  | some c => if c.a = 0 then [] else [.setFg c]

/-- `bgColor(color)`. -/
def bgColorCmds : Option RGBA → List TermCmd
  | none => []
  | some c => if c.a = 0 then [] else [.setBg c]

/-- `styleCode(styles)`: one code per enabled flag, in the record's entry
order (bold, dim, italic, underline, strikethrough, inverse). -/
def styleCodeCmds (bold dim italic underline strikethrough inverse : Bool) : List TermCmd :=
  (if bold then [.setStyle .bold] else [])
    ++ (if dim then [.setStyle .dim] else [])
    ++ (if italic then [.setStyle .italic] else [])
    ++ (if underline then [.setStyle .underline] else [])
    ++ (if strikethrough then [.setStyle .strikethrough] else [])
    ++ (if inverse then [.setStyle .inverse] else [])

/-- The tracked SGR state (`lastFg`, `lastBg`, `lastStyles`), which is also the
attribute state of the terminal model. -/
structure SGRState where
  fg : Option RGBA
  bg : Option RGBA
  bold : Bool
  dim : Bool
  italic : Bool
  underline : Bool
  strikethrough : Bool
  inverse : Bool
deriving DecidableEq, Repr

def sgrInit : SGRState :=
  { fg := none, bg := none, bold := false, dim := false, italic := false,
    underline := false, strikethrough := false, inverse := false }

/-- The per-cell body of `render()`: reset when any style flips on→off (with
`lastFg`/`lastBg`/`lastStyles` cleared), re-emit fg/bg when changed
(`colorEqual` is structural equality), enable the styles that are newly on,
then the character; the tracked state becomes the cell's attributes. -/
def renderCellCmds (cell : Cell) (st : SGRState) : List TermCmd × SGRState :=
  let needsReset :=
    (st.bold && !cell.bold) || (st.dim && !cell.dim) || (st.italic && !cell.italic)
      || (st.underline && !cell.underline) || (st.strikethrough && !cell.strikethrough)
      || (st.inverse && !cell.inverse)
  let st1 := if needsReset then sgrInit else st
  let resetCmds : List TermCmd := if needsReset then [.reset] else []
  let fgCmds := if cell.fg = st1.fg then [] else fgColorCmds cell.fg
  let bgCmds := if cell.bg = st1.bg then [] else bgColorCmds cell.bg
  let styleCmds := styleCodeCmds (cell.bold && !st1.bold) (cell.dim && !st1.dim)
      (cell.italic && !st1.italic) (cell.underline && !st1.underline)
      (cell.strikethrough && !st1.strikethrough) (cell.inverse && !st1.inverse)
  (resetCmds ++ fgCmds ++ bgCmds ++ styleCmds ++ [.putChar cell.char],
   { fg := cell.fg, bg := cell.bg, bold := cell.bold, dim := cell.dim, italic := cell.italic,
     underline := cell.underline, strikethrough := cell.strikethrough,
     inverse := cell.inverse })

def renderRowCells : List Cell → SGRState → List TermCmd × SGRState
  | [], st => ([], st)
  | c :: cs, st =>
    let rc := renderCellCmds c st
    let rest := renderRowCells cs rc.2
    (rc.1 ++ rest.1, rest.2)

/-- The row loop of `render()`: each row starts with the cursor move
`\x1b[{y+1};1H`; a final reset closes the output. -/
def renderRows : List (List Cell) → ℕ → SGRState → List TermCmd
  | [], _, _ => [.reset]
  | row :: rest, y, st =>
    let r := renderRowCells row st
    .moveCursor (y + 1) 1 :: (r.1 ++ renderRows rest (y + 1) r.2)

/-- `ScreenBuffer.render()`. -/
def renderCmds (b : ScreenBufferMd) : List TermCmd :=
  renderRows b.cells 0 sgrInit

/-- The per-changed-cell output of `renderDiff()`: cursor move, unconditional
reset, the cell's fg/bg (when non-null; `fgColor` still drops alpha 0), its
enabled styles, then the character. -/
def renderDiffCellCmds (cell : Cell) (x y : ℕ) : List TermCmd :=
  .moveCursor (y + 1) (x + 1) :: .reset ::
    (fgColorCmds cell.fg ++ bgColorCmds cell.bg
      ++ styleCodeCmds cell.bold cell.dim cell.italic cell.underline cell.strikethrough
          cell.inverse
      ++ [.putChar cell.char])

/-- The column loop of `renderDiff()`: skip a cell when the previous frame has
a structurally equal cell at the same position (`prevCells[y]?.[x]`). -/
def diffRowCells : List Cell → Option (List Cell) → ℕ → ℕ → List TermCmd
  | [], _, _, _ => []
  | c :: cs, prevRow, x, y =>
    let pc := prevRow.bind (fun r => r.get? x)
    (match pc with
      | some p => if p = c then [] else renderDiffCellCmds c x y
      | none => renderDiffCellCmds c x y)
      ++ diffRowCells cs prevRow (x + 1) y

def diffRows : List (List Cell) → List (List Cell) → ℕ → List TermCmd
  | [], _, _ => []
  | row :: rest, prev, y => diffRowCells row (prev.get? y) 0 y ++ diffRows rest prev (y + 1)

/-- `ScreenBuffer.renderDiff()`: full render when there is no previous frame,
otherwise only the changed cells, closed by a reset. -/
def renderDiffCmds (b : ScreenBufferMd) : List TermCmd :=
  match b.prevCells with
  | none => renderCmds b
  | some prev => diffRows b.cells prev 0 ++ [.reset]

/-! #### Terminal model -/

/-- A terminal: a cell grid, a 0-based cursor, and the current SGR state. -/
structure TermState where
  grid : List (List Cell)
  row : ℕ
  col : ℕ
  sgr : SGRState
deriving DecidableEq, Repr

def termInit (grid : List (List Cell)) : TermState :=
  { grid := grid, row := 0, col := 0, sgr := sgrInit }

def gridSet (g : List (List Cell)) (r c : ℕ) (cell : Cell) : List (List Cell) :=
  match g.get? r with
  | none => g
  | some row => g.set r (row.set c cell)

def setStyleFlag (st : SGRState) : SGRStyle → SGRState
  | .bold => { st with bold := true }
  | .dim => { st with dim := true }
  | .italic => { st with italic := true }
  | .underline => { st with underline := true }
  | .strikethrough => { st with strikethrough := true }
  | .inverse => { st with inverse := true }

/-- One terminal command: cursor moves are 1-based, `reset` clears the SGR
state, a printed character takes the current SGR state and advances the
cursor one column. -/
def applyCmd (t : TermState) : TermCmd → TermState
  | .moveCursor r c => { t with row := r - 1, col := c - 1 }
  | .reset => { t with sgr := sgrInit }
  | .setFg c => { t with sgr := { t.sgr with fg := some c } }
  | .setBg c => { t with sgr := { t.sgr with bg := some c } }
  | .setStyle s => { t with sgr := setStyleFlag t.sgr s }
  | .putChar ch =>
    { t with
      grid := gridSet t.grid t.row t.col
        { char := ch, fg := t.sgr.fg, bg := t.sgr.bg, bold := t.sgr.bold, dim := t.sgr.dim,
          italic := t.sgr.italic, underline := t.sgr.underline,
          strikethrough := t.sgr.strikethrough, inverse := t.sgr.inverse }
      col := t.col + 1 }

def applyCmds (t : TermState) (cmds : List TermCmd) : TermState :=
  cmds.foldl applyCmd t

def redRGBA : RGBA := { r := 255, g := 0, b := 0, a := 1 }

/-- Current frame, cell (0,0): `'a'` with red foreground. -/
def cellRedA : Cell :=
  { char := 'a', fg := some redRGBA, bg := none, bold := false, dim := false, italic := false,
    underline := false, strikethrough := false, inverse := false }

/-- Current frame, cell (1,0): `'b'` with default (null) foreground. -/
def cellPlainB : Cell :=
  { char := 'b', fg := none, bg := none, bold := false, dim := false, italic := false,
    underline := false, strikethrough := false, inverse := false }

/-- A 2×1 buffer whose previous frame was blank. -/
def diffBuf : ScreenBufferMd :=
  { width := 2, height := 1, cells := [[cellRedA, cellPlainB]],
    prevCells := some [[emptyCell, emptyCell]] }

/-- C6: diff/full equivalence fails.  Starting the terminal model from the
previous frame's (blank) cells, applying `renderDiff()` produces exactly the
current cells — `'b'` with default foreground — but applying `render()` leaves
`'b'` with the red foreground: when the foreground changes from a color to
null with no attribute flag turning off, `render()` emits nothing
(`fgColor(undefined)` is the empty string) yet records `lastFg = null`, so the
terminal keeps the stale color.  The two resulting grids differ. -/
theorem render_diff_divergence :
    (applyCmds (termInit [[emptyCell, emptyCell]]) (renderDiffCmds diffBuf)).grid
        = [[cellRedA, cellPlainB]]
      ∧ (applyCmds (termInit [[emptyCell, emptyCell]]) (renderCmds diffBuf)).grid
          = [[cellRedA, { cellPlainB with fg := some redRGBA }]]
      ∧ (applyCmds (termInit [[emptyCell, emptyCell]]) (renderCmds diffBuf)).grid
          ≠ (applyCmds (termInit [[emptyCell, emptyCell]]) (renderDiffCmds diffBuf)).grid := by
  decide

end TuiKit
